import Mathlib

/-!
Verification of the job-hunter auto-apply core: a shallow embedding of the
scoring, deduplication, matching, quota scheduling and per-job action
classification logic of `app/scrapers.py`, `app/scrapers/manager.py`,
`app/models.py` and `app/auto_apply.py`, together with theorems checking the
natural-language specification against it.

Conventions of the embedding:
* Python strings are `String`, nullable database columns are `Option`.
* Python integers are `Int` or `Nat`; 32-bit machine words inside the MD5
  model are `Nat` values kept below `2 ^ 32` by explicit `% 2 ^ 32`.
* The database session is explicit state (`DBState`); external collaborators
  (SMTP transport, cover-letter generation, wall clock) are oracle fields of
  an `Env` record.
* `SELECT ... ORDER BY relevance_score DESC` is modelled as a stable
  descending sort (`List.insertionSort`), matching the stability contract the
  specification states for tie-breaking.
-/

/-- Python `pat in s` on strings: `pat` occurs as a contiguous substring of
`s`. -/
def strIn (pat s : String) : Bool := decide (pat.data <:+: s.data)

/-- Python `s.lower()`, modelled on the ASCII range (every string literal the
source compares case-insensitively is ASCII). -/
def lowerStr (s : String) : String := String.mk (s.data.map Char.toLower)

/-- Python `s.strip()`: remove leading and trailing whitespace. -/
def trimStr (s : String) : String :=
  String.mk (((s.data.dropWhile Char.isWhitespace).reverse.dropWhile
    Char.isWhitespace).reverse)

/-- Split a character list on a separator, Python `str.split(sep)` style:
the empty input yields one empty field, and adjacent separators yield empty
fields. -/
def splitOnChar (sep : Char) : List Char → List (List Char)
  | [] => [[]]
  | c :: rest =>
    if c == sep then [] :: splitOnChar sep rest
    else
      match splitOnChar sep rest with
      | g :: gs => (c :: g) :: gs
      | [] => [[c]]

/-- Parse an unsigned decimal numeral, `none` on empty or non-digit input. -/
def digitsToNat : List Char → Option Nat
  | [] => none
  | l =>
    if l.all Char.isDigit then
      some (l.foldl (fun n c => 10 * n + (c.toNat - 48)) 0)
    else none

namespace MD5

/-- The modulus `2 ^ 32` for 32-bit words. -/
def mask32 : Nat := 4294967296

/-- The 64 round constants of MD5 (RFC 1321), `floor(abs(sin(i+1)) * 2^32)`. -/
def K : List Nat := [
  3614090360, 3905402710, 606105819, 3250441966, 4118548399, 1200080426, 2821735955, 4249261313,
  1770035416, 2336552879, 4294925233, 2304563134, 1804603682, 4254626195, 2792965006, 1236535329,
  4129170786, 3225465664, 643717713, 3921069994, 3593408605, 38016083, 3634488961, 3889429448,
  568446438, 3275163606, 4107603335, 1163531501, 2850285829, 4243563512, 1735328473, 2368359562,
  4294588738, 2272392833, 1839030562, 4259657740, 2763975236, 1272893353, 4139469664, 3200236656,
  681279174, 3936430074, 3572445317, 76029189, 3654602809, 3873151461, 530742520, 3299628645,
  4096336452, 1126891415, 2878612391, 4237533241, 1700485571, 2399980690, 4293915773, 2240044497,
  1873313359, 4264355552, 2734768916, 1309151649, 4149444226, 3174756917, 718787259, 3951481745]

/-- The per-round left-rotation amounts of MD5. -/
def S : List Nat := [
  7, 12, 17, 22, 7, 12, 17, 22, 7, 12, 17, 22, 7, 12, 17, 22,
  5, 9, 14, 20, 5, 9, 14, 20, 5, 9, 14, 20, 5, 9, 14, 20,
  4, 11, 16, 23, 4, 11, 16, 23, 4, 11, 16, 23, 4, 11, 16, 23,
  6, 10, 15, 21, 6, 10, 15, 21, 6, 10, 15, 21, 6, 10, 15, 21]

/-- UTF-8 encoding of one character, as Python `str.encode()` produces. -/
def utf8Bytes (c : Char) : List Nat :=
  let n := c.toNat
  if n < 128 then [n]
  else if n < 2048 then [192 + n / 64, 128 + n % 64]
  else if n < 65536 then [224 + n / 4096, 128 + n / 64 % 64, 128 + n % 64]
  else [240 + n / 262144, 128 + n / 4096 % 64, 128 + n / 64 % 64, 128 + n % 64]

/-- UTF-8 bytes of a string. -/
def strBytes (s : String) : List Nat := s.data.flatMap utf8Bytes

/-- Split a byte list into 64-byte chunks (fuelled structural recursion; the
fuel is instantiated with the length of the list, which bounds the number of
chunks). -/
def chunks : Nat → List Nat → List (List Nat)
  | 0, _ => []
  | _, [] => []
  | fuel + 1, l => l.take 64 :: chunks fuel (l.drop 64)

/-- Rotate a 32-bit word (a `Nat` below `2 ^ 32`) left by `n` bits. -/
def rotl (x n : Nat) : Nat := (x % 2 ^ (32 - n)) * 2 ^ n + x / 2 ^ (32 - n)

/-- Bitwise complement on 32-bit words. -/
def bnot (x : Nat) : Nat := x ^^^ 4294967295

/-- The 8 little-endian bytes of the 64-bit message bit length. -/
def lenBytes (len : Nat) : List Nat :=
  (List.range 8).map (fun i => len * 8 / 2 ^ (8 * i) % 256)

/-- MD5 padding: append `0x80`, zero bytes up to 56 mod 64, then the message
length in bits. -/
def pad (msg : List Nat) : List Nat :=
  let padZeros := (56 + 64 - (msg.length + 1) % 64) % 64
  msg ++ 128 :: List.replicate padZeros 0 ++ lenBytes msg.length

/-- The 16 little-endian 32-bit words of one 64-byte chunk. -/
def words (chunk : List Nat) : List Nat :=
  (List.range 16).map (fun i =>
    chunk.getD (4 * i) 0 + 256 * chunk.getD (4 * i + 1) 0 +
      65536 * chunk.getD (4 * i + 2) 0 + 16777216 * chunk.getD (4 * i + 3) 0)

/-- One of the 64 MD5 rounds. -/
def step (M : List Nat) (st : Nat × Nat × Nat × Nat) (i : Nat) : Nat × Nat × Nat × Nat :=
  let (a, b, c, d) := st
  let fg : Nat × Nat :=
    if i < 16 then ((b &&& c) ||| (bnot b &&& d), i)
    else if i < 32 then ((d &&& b) ||| (bnot d &&& c), (5 * i + 1) % 16)
    else if i < 48 then (b ^^^ c ^^^ d, (3 * i + 5) % 16)
    else (c ^^^ (b ||| bnot d), (7 * i) % 16)
  let f := (fg.1 + a + K.getD i 0 + M.getD fg.2 0) % mask32
  (d, (b + rotl f (S.getD i 0)) % mask32, b, c)

/-- Process one 64-byte chunk, updating the running digest state. -/
def processChunk (st : Nat × Nat × Nat × Nat) (chunk : List Nat) : Nat × Nat × Nat × Nat :=
  let M := words chunk
  let r := (List.range 64).foldl (step M) st
  ((st.1 + r.1) % mask32, (st.2.1 + r.2.1) % mask32,
   (st.2.2.1 + r.2.2.1) % mask32, (st.2.2.2 + r.2.2.2) % mask32)

/-- Lowercase hexadecimal digit. -/
def hexDigit (n : Nat) : Char := if n < 10 then Char.ofNat (48 + n) else Char.ofNat (87 + n)

/-- Two lowercase hex digits of one byte. -/
def byteHex (b : Nat) : List Char := [hexDigit (b / 16), hexDigit (b % 16)]

/-- The 4 little-endian bytes of a 32-bit word. -/
def wordLE (x : Nat) : List Nat := [x % 256, x / 256 % 256, x / 65536 % 256, x / 16777216 % 256]

/-- Model of Python `hashlib.md5(s.encode()).hexdigest()` (RFC 1321 MD5,
validated against the reference test vectors). -/
def md5hex (s : String) : String :=
  let msg := strBytes s
  let p := pad msg
  let (a, b, c, d) :=
    (chunks p.length p).foldl processChunk (1732584193, 4023233417, 2562383102, 271733878)
  String.mk (((wordLE a ++ wordLE b ++ wordLE c ++ wordLE d).map byteHex).flatten)

end MD5

namespace JobScraper

/-- Python `re.sub` deleting every character outside `[^a-zA-Z0-9]`: keep
only ASCII alphanumerics. -/
def cleanAlnum (s : String) : String := String.mk (s.data.filter Char.isAlphanum)

/-- Model of `JobScraper.generate_job_id` from `app/scrapers.py`: hash of the URL,
cleaned title and cleaned company joined by underscores. Python string
slicing `[:n]` is `List.take n` on the characters. -/
def generate_job_id (title company url : String) : String :=
  let url_hash := String.mk ((MD5.md5hex url).data.take 8)
  let clean_title := String.mk ((cleanAlnum title).data.take 30)
  let clean_company := String.mk ((cleanAlnum company).data.take 20)
  clean_company ++ "_" ++ clean_title ++ "_" ++ url_hash

end JobScraper

namespace ScraperManager

/-- Model of `ScraperManager.generate_job_id` from `app/scrapers/manager.py`: the first
16 hex digits of the MD5 of the raw joined fields. -/
def generate_job_id (title company url : String) : String :=
  String.mk ((MD5.md5hex (url ++ "_" ++ title ++ "_" ++ company)).data.take 16)

end ScraperManager

/-- The list `Config.KEYWORDS` from `config.py`. -/
def ConfigKEYWORDS : List String := [
  "SOC Analyst", "Security Analyst", "Cybersecurity",
  "Junior Developer", "DevSecOps", "InfoSec",
  "Security Engineer", "Threat Analyst", "Python Developer",
  "Full Stack Developer", "Backend Developer",
  "Data Analyst", "Data Engineer", "Database Administrator",
  "Network Administrator", "Network Engineer",
  "IT Technician", "IT Support Specialist", "IT Support Engineer",
  "Systems Administrator", "Infrastructure Engineer",
  "IT Specialist", "Computer Technician", "Technical Support",
  "Help Desk", "System Administrator"]

namespace JobScraper

/-- High priority title keywords of `calculate_relevance` (20 points each). -/
def priority_keywords : List String :=
  ["soc", "security", "cybersecurity", "analyst", "infosec", "python", "developer"]

/-- Medium priority title keywords of `calculate_relevance` (15 points each). -/
def medium_keywords : List String :=
  ["junior", "entry", "associate", "engineer", "specialist"]

/-- Positive location indicators of `calculate_relevance` (10 points, once). -/
def location_keywords : List String :=
  ["kenya", "remote", "nairobi", "work from home"]

/-- Negative keywords of `calculate_relevance` (20 points off each). -/
def negative_keywords : List String :=
  ["senior", "5+ years", "7+ years", "10+ years", "expert", "lead", "principal",
    "manager", "director"]

/-- Model of `JobScraper.calculate_relevance` from `app/scrapers.py`. The description
and company may be absent (Python default arguments and `or` guards); the
company is
lowercased by the source but never used afterwards. Loops are folds in
source order. -/
def calculate_relevance (job_title : String) (job_description : Option String)
    (company : Option String) : Int :=
  let title_lower := lowerStr job_title
  let desc_lower := lowerStr (job_description.getD "")
  let _company_lower := lowerStr (company.getD "")
  let score : Int := 0
  let score := priority_keywords.foldl
    (fun sc kw => if strIn kw title_lower then sc + 20 else sc) score
  let score := medium_keywords.foldl
    (fun sc kw => if strIn kw title_lower then sc + 15 else sc) score
  let desc_score := ConfigKEYWORDS.foldl
    (fun (sc : Int) kw => if strIn (lowerStr kw) desc_lower then sc + 5 else sc) 0
  let score := score + min desc_score 30
  let score := if location_keywords.any
      (fun loc => strIn loc desc_lower || strIn loc title_lower) then score + 10 else score
  let score := negative_keywords.foldl
    (fun sc kw => if strIn kw title_lower || strIn kw desc_lower then sc - 20 else sc) score
  min (max score 0) 100

end JobScraper

/-- Character class of the local part of the email pattern
`[a-zA-Z0-9._%+-]`. -/
def isLocalChar (c : Char) : Bool :=
  c.isAlphanum || c == '.' || c == '_' || c == '%' || c == '+' || c == '-'

/-- Character class of the domain of the email pattern `[a-zA-Z0-9.-]`. -/
def isDomChar (c : Char) : Bool := c.isAlphanum || c == '.' || c == '-'

/-- Length of the maximal ASCII-letter run at the front of a character
list (`[a-zA-Z]*`, greedy). -/
def alphaRunLen (l : List Char) : Nat := (l.takeWhile Char.isAlpha).length

/-- Greedy match of the domain tail `[a-zA-Z0-9.-]+\.[a-zA-Z]{2,}` against the
maximal domain-character run `r`: try the dot position `pos = k + 1` and, on
failure, backtrack towards smaller positions exactly as the Python regex
engine does (largest split of the greedy `+` first). Returns the number of
characters of `r` consumed by a successful match. -/
def domainSplit (r : List Char) : Nat → Option Nat
  | 0 => none
  | k + 1 =>
    if r.getD (k + 1) ' ' == '.' && 2 ≤ alphaRunLen (r.drop (k + 2)) then
      some (k + 2 + alphaRunLen (r.drop (k + 2)))
    else domainSplit r k

/-- Try to match the email regex `[a-zA-Z0-9._%+-]+@[a-zA-Z0-9.-]+\.[a-zA-Z]{2,}`
anchored at the head of `cs`; return the matched characters. -/
def matchEmailAt (cs : List Char) : Option (List Char) :=
  let loc := cs.takeWhile isLocalChar
  if loc.isEmpty then none
  else
    match cs.drop loc.length with
    | '@' :: rest =>
      let r := rest.takeWhile isDomChar
      match domainSplit r (r.length - 1) with
      | some consumed => some (loc ++ '@' :: r.take consumed)
      | none => none
    | _ => none

/-- Leftmost match of the email regex: the scan tries every start position in
order, as `re.findall` does, and `matches[0]` is the first success. -/
def findFirstEmail : List Char → Option String
  | [] => none
  | c :: cs =>
    match matchEmailAt (c :: cs) with
    | some m => some (String.mk m)
    | none => findFirstEmail cs

/-- Model of `AutoApplyManager._extract_email` from `app/auto_apply.py`: first match of
the email pattern in the description, if any. -/
def extract_email (description : String) : Option String :=
  findFirstEmail description.data

/-- The `jobs` table row (`Job` in `app/models.py`). Nullable columns are
`Option`; timestamps are abstract `Nat` instants. -/
structure Job where
  id : Nat
  job_id : String
  title : String
  company : String
  location : Option String
  url : String
  description : Option String
  source : Option String
  salary : Option String
  job_type : Option String
  status : String
  relevance_score : Int
  posted_date : Option Nat
  found_date : Option Nat
  applied_date : Option Nat
deriving DecidableEq

/-- The `applications` table row (`Application` in `app/models.py`),
restricted to the fields the auto-apply core writes. -/
structure Application where
  job_id : Nat
  cover_letter : String
  email_sent : Bool
  applied_date : Nat
deriving DecidableEq

/-- The `auto_apply_logs` table row (`AutoApplyLog` in `app/models.py`). -/
structure AutoApplyLog where
  job_id : Nat
  action : String
  reason : String
  recruiter_email : Option String
  email_sent : Bool
  telegram_sent : Bool
deriving DecidableEq

/-- The `auto_apply_settings` table row (`AutoApplySettings` in
`app/models.py`). -/
structure AutoApplySettings where
  enabled : Bool
  job_titles : Option String
  locations : Option String
  job_types : Option String
  max_applications_per_day : Nat
  total_auto_applied : Nat
  last_run : Option Nat
deriving DecidableEq

/-- Shared body of the three criteria getters: Python
`if not field: return []`, then split on commas and strip each piece.
`None` and the empty string are falsy; any other text is split on commas and
each piece stripped. -/
def parseCommaList : Option String → List String
  | none => []
  | some s =>
    if s = "" then [] else (splitOnChar ',' s.data).map (fun g => trimStr (String.mk g))

/-- Model of `AutoApplySettings.get_job_titles_list`. -/
def AutoApplySettings.get_job_titles_list (s : AutoApplySettings) : List String :=
  parseCommaList s.job_titles

/-- Model of `AutoApplySettings.get_locations_list`. -/
def AutoApplySettings.get_locations_list (s : AutoApplySettings) : List String :=
  parseCommaList s.locations

/-- Model of `AutoApplySettings.get_job_types_list`. -/
def AutoApplySettings.get_job_types_list (s : AutoApplySettings) : List String :=
  parseCommaList s.job_types

/-- SQL `column ILIKE` against the pattern `%pat%` on a nullable column:
case-insensitive
substring containment, false on NULL (SQL three-valued logic drops NULL
rows from a WHERE clause). -/
def ilikeContains (field : Option String) (pat : String) : Bool :=
  match field with
  | none => false
  | some s => strIn (lowerStr pat) (lowerStr s)

/-- The persistent store visible to one scheduler run: the four tables the
auto-apply core reads and writes. -/
structure DBState where
  jobs : List Job
  applications : List Application
  logs : List AutoApplyLog
  settings : AutoApplySettings
deriving DecidableEq

/-- External collaborators of one run: the email transport (the Boolean
result of `_send_application_email`, which returns False when SMTP raises),
the cover-letter generator `generate_cover_letter(title, company, desc)`,
and the wall clock. -/
structure Env where
  emailSendOk : Job → String → Bool
  coverLetter : String → String → String → String
  now : Nat

/-- Score-descending comparison used by `order_by(Job.relevance_score.desc())`. -/
def scoreGE (a b : Job) : Prop := b.relevance_score ≤ a.relevance_score

instance : DecidableRel scoreGE := fun a b => Int.decLe b.relevance_score a.relevance_score

instance : IsTotal Job scoreGE := ⟨fun a b => le_total b.relevance_score a.relevance_score⟩

instance : IsTrans Job scoreGE := ⟨fun _ _ _ h1 h2 => le_trans h2 h1⟩

/-- The filtering part of `AutoApplyManager._find_matching_jobs`: status must
be "Found"; each configured criteria dimension (title, location, type) must
match at least one of its substrings, case-insensitively; an empty criteria
list leaves its dimension unfiltered. -/
def matching_pool (jobs : List Job) (s : AutoApplySettings) : List Job :=
  let job_titles := s.get_job_titles_list
  let locations := s.get_locations_list
  let job_types := s.get_job_types_list
  let q := jobs.filter (fun j => j.status == "Found")
  let q := if job_titles.isEmpty then q else
    q.filter (fun j => job_titles.any (fun t => ilikeContains (some j.title) t))
  let q := if locations.isEmpty then q else
    q.filter (fun j => locations.any (fun loc => ilikeContains j.location loc))
  let q := if job_types.isEmpty then q else
    q.filter (fun j => job_types.any (fun jtype => ilikeContains j.job_type jtype))
  q

/-- Model of `AutoApplyManager._find_matching_jobs`: the filtered jobs, ordered by
relevance score descending (stable sort, ties in stored order). -/
def find_matching_jobs (jobs : List Job) (s : AutoApplySettings) : List Job :=
  List.insertionSort scoreGE (matching_pool jobs s)

/-- The log row written by the skip branch of `_apply_to_job`
(unset columns keep their model defaults). -/
def skipLog (j : Job) : AutoApplyLog :=
  { job_id := j.id, action := "skipped", reason := "Already applied to this job",
    recruiter_email := none, email_sent := false, telegram_sent := false }

/-- The log row written by the successful auto-apply branch. -/
def autoAppliedLog (j : Job) (recruiter_email : String) : AutoApplyLog :=
  { job_id := j.id, action := "auto_applied", reason := "Email found and sent automatically",
    recruiter_email := some recruiter_email, email_sent := true, telegram_sent := true }

/-- The log row written by the manual-apply branch. -/
def manualLog (j : Job) : AutoApplyLog :=
  { job_id := j.id, action := "manual_apply_needed",
    reason := "No recruiter email found - manual action needed",
    recruiter_email := none, email_sent := false, telegram_sent := true }

/-- Model of `AutoApplyManager._apply_to_job` from `app/auto_apply.py`. Branches in
source order: an existing application row logs "skipped"; otherwise a cover
letter is generated and an email extracted from the description. With an
email, a successful send creates the application row, advances the job to
"Applied", logs "auto_applied" and bumps `total_auto_applied`; a failed send
(`_send_application_email` catches the SMTP exception and returns False)
falls through the `if success:` guard and changes nothing. With no email,
the manual branch creates the row with `email_sent=False`, reassigns status
"Found", logs "manual_apply_needed" and bumps the counter. Returns the state
and the Boolean result of the Python function. -/
def apply_to_job (env : Env) (st : DBState) (j : Job) : DBState × Bool :=
  if st.applications.any (fun a => a.job_id == j.id) then
    ({ st with logs := st.logs ++ [skipLog j] }, false)
  else
    let cover_letter := env.coverLetter j.title j.company (j.description.getD "")
    match extract_email (j.description.getD "") with
    | some recruiter_email =>
      if env.emailSendOk j recruiter_email then
        ({ st with
            jobs := st.jobs.map (fun x => if x.id == j.id then
              { x with status := "Applied", applied_date := some env.now } else x),
            applications := st.applications ++
              [{ job_id := j.id, cover_letter := cover_letter, email_sent := true,
                 applied_date := env.now }],
            logs := st.logs ++ [autoAppliedLog j recruiter_email],
            settings := { st.settings with
              total_auto_applied := st.settings.total_auto_applied + 1 } }, true)
      else (st, false)
    | none =>
      ({ st with
          jobs := st.jobs.map (fun x => if x.id == j.id then
            { x with status := "Found" } else x),
          applications := st.applications ++
            [{ job_id := j.id, cover_letter := cover_letter, email_sent := false,
               applied_date := env.now }],
          logs := st.logs ++ [manualLog j],
          settings := { st.settings with
            total_auto_applied := st.settings.total_auto_applied + 1 } }, true)

/-- The per-job loop of `run_daily_auto_apply`: process each admitted job in
order, counting the jobs for which `_apply_to_job` returned True. -/
def process_jobs (env : Env) (st : DBState) : List Job → DBState × Nat
  | [] => (st, 0)
  | j :: rest =>
    let r := apply_to_job env st j
    let rr := process_jobs env r.1 rest
    (rr.1, (if r.2 then 1 else 0) + rr.2)

/-- The quota admission of `run_daily_auto_apply`: the slice
`matching_jobs[:settings.max_applications_per_day]` handed to the per-job
classifier. -/
def admitted_jobs (jobs : List Job) (s : AutoApplySettings) : List Job :=
  (find_matching_jobs jobs s).take s.max_applications_per_day

/-- Model of `AutoApplyManager.run_daily_auto_apply`: no enabled settings row aborts
the run; otherwise the matching jobs are computed, an empty match set ends
the run without touching `last_run`, and at most
`max_applications_per_day` of the matches (in order) are processed, after
which `last_run` is set to the run time. -/
def run_daily_auto_apply (env : Env) (st : DBState) : DBState × Nat :=
  if st.settings.enabled = false then (st, 0)
  else
    let matching := find_matching_jobs st.jobs st.settings
    if matching.isEmpty then (st, 0)
    else
      let r := process_jobs env st (admitted_jobs st.jobs st.settings)
      ({ r.1 with settings := { r.1.settings with last_run := some env.now } }, r.2)

/-- Modelled from the spec: the freshness filter
`isFresh(postedDateText, maxAgeDays)` described in section 4.4 has no
implementation under `src/` (no relative-date parsing appears in any source
file), so it is modelled from the specification text: it parses the
relative-date phrases "today", "N days ago" and "N weeks ago"; unparseable
or absent input defaults to fresh; day counts are compared against
`maxAgeDays` (default 14) while week counts are compared against a separate
2-week threshold. -/
def isFresh (postedDateText : Option String) (maxAgeDays : Nat) : Bool :=
  match postedDateText with
  | none => true
  | some txt =>
    let t := lowerStr (trimStr txt)
    if t = "today" then true
    else
      match (splitOnChar ' ' t.data).map String.mk with
      | [n, "days", "ago"] =>
        match digitsToNat n.data with
        | some d => d ≤ maxAgeDays
        | none => true
      | [n, "weeks", "ago"] =>
        match digitsToNat n.data with
        | some w => w ≤ 2
        | none => true
      | _ => true

/-- Concrete fixture: a high-scoring "Found" job whose description contains
an extractable email address. -/
def jobHi : Job :=
  { id := 1, job_id := "j1", title := "Junior Developer", company := "Acme",
    location := some "Kenya", url := "https://x.co/1",
    description := some "Contact hr@acme.com to apply", source := some "RemoteOK",
    salary := none, job_type := some "Remote", status := "Found", relevance_score := 90,
    posted_date := none, found_date := some 0, applied_date := none }

/-- Concrete fixture: a mid-scoring "Found" job with no email in its
description. -/
def jobMid : Job :=
  { jobHi with
      id := 2, job_id := "j2", title := "Data Analyst",
      description := some "apply on the website", relevance_score := 70 }

/-- Concrete fixture: a job tied in score with `jobMid`, listed after it. -/
def jobTie : Job :=
  { jobHi with
      id := 3, job_id := "j3", title := "SOC Analyst", description := none,
      relevance_score := 70 }

/-- Concrete fixture: an already-applied job. -/
def jobDone : Job :=
  { jobHi with
      id := 4, job_id := "j4", title := "Python Developer", status := "Applied",
      applied_date := some 5 }

/-- Concrete fixture: enabled settings with no criteria and a daily quota
of 2. -/
def emptySettings : AutoApplySettings :=
  { enabled := true, job_titles := none, locations := none, job_types := none,
    max_applications_per_day := 2, total_auto_applied := 0, last_run := none }

/-- Concrete fixture: the jobs table in insertion order. -/
def fixtureJobs : List Job := [jobHi, jobMid, jobTie, jobDone]

/-- Concrete fixture: settings whose job-titles text ends in a trailing
comma, so its parsed criteria list contains the empty string. -/
def sC10 : AutoApplySettings :=
  { emptySettings with job_titles := some "Python Developer," }

/-- Concrete fixture: an environment whose email transport always succeeds. -/
def envOk : Env :=
  { emailSendOk := fun _ _ => true, coverLetter := fun _ _ _ => "letter", now := 7 }

/-- Concrete fixture: an environment whose email transport always fails
(every SMTP attempt raises and `_send_application_email` returns False). -/
def envFail : Env :=
  { emailSendOk := fun _ _ => false, coverLetter := fun _ _ _ => "letter", now := 7 }

/-- Concrete fixture: a store holding the fixture jobs and no applications
or logs. -/
def fixtureState : DBState :=
  { jobs := fixtureJobs, applications := [], logs := [], settings := emptySettings }

/-- Concrete fixture: a store holding only the email-bearing job. -/
def stOneJob : DBState :=
  { jobs := [jobHi], applications := [], logs := [], settings := emptySettings }

/-- Concrete fixture: the application row created by an earlier
manual-apply-needed pass over `jobMid`. -/
def appMid : Application :=
  { job_id := 2, cover_letter := "letter", email_sent := false, applied_date := 3 }

/-- Concrete fixture: a store in which `jobMid` was already processed as
manual-apply-needed: its application row exists while its status is still
"Found". -/
def stManualDone : DBState :=
  { jobs := [jobHi, jobMid], applications := [appMid], logs := [manualLog jobMid],
    settings := emptySettings }

/-- A fold that adds `w` for every element satisfying `p` computes
`init + w * count`. -/
theorem foldl_if_add {α : Type} (w : Int) (p : α → Bool) (l : List α) (init : Int) :
    l.foldl (fun sc kw => if p kw then sc + w else sc) init
      = init + w * ((l.filter p).length : Int) := by
  induction l generalizing init with
  | nil => simp
  | cons x l ih =>
    by_cases h : p x
    · simp [h, ih, List.filter_cons]
      ring
    · simp [h, ih, List.filter_cons]

/-- A fold that subtracts `w` for every element satisfying `p` computes
`init - w * count`. -/
theorem foldl_if_sub {α : Type} (w : Int) (p : α → Bool) (l : List α) (init : Int) :
    l.foldl (fun sc kw => if p kw then sc - w else sc) init
      = init - w * ((l.filter p).length : Int) := by
  induction l generalizing init with
  | nil => simp
  | cons x l ih =>
    by_cases h : p x
    · simp [h, ih, List.filter_cons]
      ring
    · simp [h, ih, List.filter_cons]

/-- Closed form of `calculate_relevance`: 20 points per high-priority keyword
in the title, 15 per medium keyword in the title, 5 per `Config.KEYWORDS`
entry in the description with that component capped at 30, one 10-point bonus
if any location keyword occurs in the description or title, minus 20 per
negative keyword in the title or description, clamped into `[0, 100]`. -/
theorem calculate_relevance_eq (t : String) (d c : Option String) :
    JobScraper.calculate_relevance t d c =
      min (max (20 * ((JobScraper.priority_keywords.filter
            (fun kw => strIn kw (lowerStr t))).length : Int)
          + 15 * ((JobScraper.medium_keywords.filter
            (fun kw => strIn kw (lowerStr t))).length : Int)
          + min (5 * ((ConfigKEYWORDS.filter
            (fun kw => strIn (lowerStr kw) (lowerStr (d.getD "")))).length : Int)) 30
          + (if JobScraper.location_keywords.any
                (fun loc => strIn loc (lowerStr (d.getD "")) || strIn loc (lowerStr t))
              then (10 : Int) else 0)
          - 20 * ((JobScraper.negative_keywords.filter
            (fun kw => strIn kw (lowerStr t) || strIn kw (lowerStr (d.getD "")))).length : Int)) 0)
        100 := by
  simp only [JobScraper.calculate_relevance, foldl_if_add, foldl_if_sub]
  by_cases h : JobScraper.location_keywords.any
      (fun loc => strIn loc (lowerStr (d.getD "")) || strIn loc (lowerStr t)) <;>
    simp [h]

/-- C6 counterexample: the claim describes the skill-term bonus as counted
over terms "found in the description or the title". The two inputs below
agree on every feature the claim makes the score depend on, including the
set of skill terms occurring in the description-or-title union, yet the code
scores them differently, because the source counts skill terms in the
description only. -/
theorem C6_counterexample :
    (JobScraper.priority_keywords.filter
        (fun kw => strIn kw (lowerStr "data analyst")) =
      JobScraper.priority_keywords.filter
        (fun kw => strIn kw (lowerStr "data analyst"))) ∧
    (ConfigKEYWORDS.filter (fun kw =>
        strIn (lowerStr kw) (lowerStr ((none : Option String).getD ""))
          || strIn (lowerStr kw) (lowerStr "data analyst")) =
      ConfigKEYWORDS.filter (fun kw =>
        strIn (lowerStr kw) (lowerStr ((some "data analyst" : Option String).getD ""))
          || strIn (lowerStr kw) (lowerStr "data analyst"))) ∧
    (JobScraper.medium_keywords.filter
        (fun kw => strIn kw (lowerStr "data analyst")) = []) ∧
    (JobScraper.negative_keywords.filter (fun kw =>
        strIn kw (lowerStr "data analyst")
          || strIn kw (lowerStr ((some "data analyst" : Option String).getD ""))) = []) ∧
    JobScraper.calculate_relevance "data analyst" none none = 20 ∧
    JobScraper.calculate_relevance "data analyst" (some "data analyst") none = 25 := by
  decide

/-- C6 amended: the relevance score equals the additive point system of the
source: 20 points per high-priority keyword matched in the title (that
component is not separately capped), 15 points per entry-level indicator in
the title, 5 points per tech-stack term matched in the description only with
that component capped at 30, a single 10-point location bonus when a location
keyword appears in the description or title, and 20 points off per negative
indicator in the title or description; the result is clamped into [0, 100]
at both ends, and a missing description is treated as the empty string. -/
theorem C6_relevance_score_amended (t : String) (d c : Option String) :
    (JobScraper.calculate_relevance t d c =
      min (max (20 * ((JobScraper.priority_keywords.filter
            (fun kw => strIn kw (lowerStr t))).length : Int)
          + 15 * ((JobScraper.medium_keywords.filter
            (fun kw => strIn kw (lowerStr t))).length : Int)
          + min (5 * ((ConfigKEYWORDS.filter
            (fun kw => strIn (lowerStr kw) (lowerStr (d.getD "")))).length : Int)) 30
          + (if JobScraper.location_keywords.any
                (fun loc => strIn loc (lowerStr (d.getD "")) || strIn loc (lowerStr t))
              then (10 : Int) else 0)
          - 20 * ((JobScraper.negative_keywords.filter
            (fun kw => strIn kw (lowerStr t) || strIn kw (lowerStr (d.getD "")))).length : Int)) 0)
        100) ∧
    0 ≤ JobScraper.calculate_relevance t d c ∧
    JobScraper.calculate_relevance t d c ≤ 100 ∧
    JobScraper.calculate_relevance t none c = JobScraper.calculate_relevance t (some "") c := by
  refine ⟨calculate_relevance_eq t d c, ?_, ?_, rfl⟩
  · rw [calculate_relevance_eq]
    exact le_min (le_max_right _ _) (by norm_num)
  · rw [calculate_relevance_eq]
    exact min_le_right _ _

/-- With all three criteria lists empty, the filtering part of the Matcher
keeps exactly the jobs with status "Found". -/
theorem matching_pool_of_empty (db : List Job) (s : AutoApplySettings)
    (ht : s.get_job_titles_list = []) (hl : s.get_locations_list = [])
    (hj : s.get_job_types_list = []) :
    matching_pool db s = db.filter (fun j => j.status == "Found") := by
  simp [matching_pool, ht, hl, hj]

/-- The result of the Matcher is a permutation of its filter pool. -/
theorem find_matching_jobs_perm (db : List Job) (s : AutoApplySettings) :
    (find_matching_jobs db s).Perm (matching_pool db s) :=
  List.perm_insertionSort scoreGE (matching_pool db s)

/-- The result of the Matcher is sorted by relevance score descending. -/
theorem find_matching_jobs_sorted (db : List Job) (s : AutoApplySettings) :
    (find_matching_jobs db s).Pairwise scoreGE :=
  List.sorted_insertionSort scoreGE (matching_pool db s)

/-- Stability of the Matcher ordering: an adjacent-in-pool pair whose first
element scores at least the second stays in that order in the result. -/
theorem find_matching_jobs_stable (db : List Job) (s : AutoApplySettings)
    {x y : Job} (hxy : scoreGE x y) (hsub : [x, y].Sublist (matching_pool db s)) :
    [x, y].Sublist (find_matching_jobs db s) :=
  List.pair_sublist_insertionSort hxy hsub

/-- C1: for every settings record with the feature enabled, the scheduler
admits exactly `min(len(candidates), max_applications_per_day)` jobs into the
per-job classifier, the admitted list is relevance-score descending, every
admitted job scores at least every non-admitted candidate, and candidates
with equal scores keep their stable pool order in the candidate list. -/
theorem C1_quota_admission (db : List Job) (s : AutoApplySettings)
    (henabled : s.enabled = true) :
    (admitted_jobs db s).length
        = min (find_matching_jobs db s).length s.max_applications_per_day ∧
    (admitted_jobs db s).Pairwise scoreGE ∧
    (∀ a ∈ admitted_jobs db s,
      ∀ b ∈ (find_matching_jobs db s).drop s.max_applications_per_day, scoreGE a b) ∧
    (∀ x y : Job, x.relevance_score = y.relevance_score →
      [x, y].Sublist (matching_pool db s) → [x, y].Sublist (find_matching_jobs db s)) := by
  refine ⟨?_, ?_, ?_, ?_⟩
  · simp [admitted_jobs, List.length_take, Nat.min_comm]
  · exact (find_matching_jobs_sorted db s).sublist (List.take_sublist _ _)
  · intro a ha b hb
    have h := find_matching_jobs_sorted db s
    rw [← List.take_append_drop s.max_applications_per_day
      (find_matching_jobs db s)] at h
    exact (List.pairwise_append.mp h).2.2 a ha b hb
  · intro x y hscore hsub
    exact find_matching_jobs_stable db s (le_of_eq hscore.symm) hsub

/-- C4: with all three criteria lists empty the Matcher returns every job
with status "Found" (as a permutation of the status filter), sorted by
relevance score descending, with tied scores kept in stable original
order. -/
theorem C4_empty_criteria (db : List Job) (s : AutoApplySettings)
    (ht : s.get_job_titles_list = []) (hl : s.get_locations_list = [])
    (hj : s.get_job_types_list = []) :
    (find_matching_jobs db s).Perm (db.filter (fun j => j.status == "Found")) ∧
    (find_matching_jobs db s).Pairwise scoreGE ∧
    (∀ x y : Job, x.relevance_score = y.relevance_score →
      [x, y].Sublist (db.filter (fun j => j.status == "Found")) →
      [x, y].Sublist (find_matching_jobs db s)) := by
  have hpool := matching_pool_of_empty db s ht hl hj
  refine ⟨?_, find_matching_jobs_sorted db s, ?_⟩
  · rw [← hpool]; exact find_matching_jobs_perm db s
  · intro x y hscore hsub
    exact find_matching_jobs_stable db s (le_of_eq hscore.symm) (hpool ▸ hsub)

/-- C1 witness: the theorem instantiated at the concrete fixture store. -/
theorem C1_quota_admission_witness :
    emptySettings.enabled = true ∧
    ((admitted_jobs fixtureJobs emptySettings).length
        = min (find_matching_jobs fixtureJobs emptySettings).length
            emptySettings.max_applications_per_day ∧
    (admitted_jobs fixtureJobs emptySettings).Pairwise scoreGE ∧
    (∀ a ∈ admitted_jobs fixtureJobs emptySettings,
      ∀ b ∈ (find_matching_jobs fixtureJobs emptySettings).drop
          emptySettings.max_applications_per_day, scoreGE a b) ∧
    (∀ x y : Job, x.relevance_score = y.relevance_score →
      [x, y].Sublist (matching_pool fixtureJobs emptySettings) →
      [x, y].Sublist (find_matching_jobs fixtureJobs emptySettings))) :=
  ⟨rfl, C1_quota_admission fixtureJobs emptySettings rfl⟩

/-- C4 witness: the theorem instantiated at the concrete fixture store with
empty criteria. -/
theorem C4_empty_criteria_witness :
    emptySettings.get_job_titles_list = [] ∧
    emptySettings.get_locations_list = [] ∧
    emptySettings.get_job_types_list = [] ∧
    ((find_matching_jobs fixtureJobs emptySettings).Perm
        (fixtureJobs.filter (fun j => j.status == "Found")) ∧
    (find_matching_jobs fixtureJobs emptySettings).Pairwise scoreGE ∧
    (∀ x y : Job, x.relevance_score = y.relevance_score →
      [x, y].Sublist (fixtureJobs.filter (fun j => j.status == "Found")) →
      [x, y].Sublist (find_matching_jobs fixtureJobs emptySettings))) :=
  ⟨rfl, rfl, rfl, C4_empty_criteria fixtureJobs emptySettings rfl rfl rfl⟩

/-- C10: a trailing comma in the job-titles text parses to a criteria list
containing the empty string; the case-insensitive substring filter for the
empty entry matches every job title; and consequently the Matcher behaves
exactly as if the title dimension were unconfigured, admitting all "Found"
jobs on that dimension regardless of the other substrings next to it. -/
theorem C10_empty_criteria_entry (db : List Job) (s : AutoApplySettings)
    (h : "" ∈ s.get_job_titles_list) :
    sC10.get_job_titles_list = ["Python Developer", ""] ∧
    (∀ j : Job, ilikeContains (some j.title) "" = true) ∧
    find_matching_jobs db s = find_matching_jobs db { s with job_titles := none } := by
  have hilike : ∀ j : Job, ilikeContains (some j.title) "" = true := by
    intro j
    simp [ilikeContains, strIn, lowerStr]
  refine ⟨by decide, hilike, ?_⟩
  have hisE : s.get_job_titles_list.isEmpty = false := by
    rcases hq : s.get_job_titles_list with _ | ⟨a, l⟩
    · rw [hq] at h; cases h
    · rfl
  have hfilter : ∀ q : List Job,
      q.filter (fun j => (s.get_job_titles_list).any
        (fun t => ilikeContains (some j.title) t)) = q := by
    intro q
    exact List.filter_eq_self.mpr (fun j _ => List.any_eq_true.mpr ⟨"", h, hilike j⟩)
  have hgetN : AutoApplySettings.get_job_titles_list { s with job_titles := none } = [] := rfl
  have hgetL : AutoApplySettings.get_locations_list { s with job_titles := none }
      = s.get_locations_list := rfl
  have hgetT : AutoApplySettings.get_job_types_list { s with job_titles := none }
      = s.get_job_types_list := rfl
  simp [find_matching_jobs, matching_pool, hgetN, hgetL, hgetT, hisE, hfilter]

/-- C10 witness: the theorem instantiated at the fixture store and the
trailing-comma settings. -/
theorem C10_empty_criteria_entry_witness :
    "" ∈ sC10.get_job_titles_list ∧
    (sC10.get_job_titles_list = ["Python Developer", ""] ∧
    (∀ j : Job, ilikeContains (some j.title) "" = true) ∧
    find_matching_jobs fixtureJobs sC10
      = find_matching_jobs fixtureJobs { sC10 with job_titles := none }) :=
  ⟨by decide, C10_empty_criteria_entry fixtureJobs sC10 (by decide)⟩

/-- Branch equation: an existing application row for the job makes
`_apply_to_job` log "skipped" and change nothing else. -/
theorem apply_to_job_skip (env : Env) (st : DBState) (j : Job)
    (h : st.applications.any (fun a => a.job_id == j.id) = true) :
    apply_to_job env st j = ({ st with logs := st.logs ++ [skipLog j] }, false) := by
  simp [apply_to_job, h]

/-- Branch equation: no existing application and no extractable email makes
`_apply_to_job` take the manual branch. -/
theorem apply_to_job_manual (env : Env) (st : DBState) (j : Job)
    (h : st.applications.any (fun a => a.job_id == j.id) = false)
    (he : extract_email (j.description.getD "") = none) :
    apply_to_job env st j =
      ({ st with
          jobs := st.jobs.map (fun x => if x.id == j.id then
            { x with status := "Found" } else x),
          applications := st.applications ++
            [{ job_id := j.id,
               cover_letter := env.coverLetter j.title j.company (j.description.getD ""),
               email_sent := false, applied_date := env.now }],
          logs := st.logs ++ [manualLog j],
          settings := { st.settings with
            total_auto_applied := st.settings.total_auto_applied + 1 } }, true) := by
  simp [apply_to_job, h, he]

/-- Branch equation: no existing application, an extractable email, and a
failing transport leave the state exactly unchanged (no log row of any kind
is written). -/
theorem apply_to_job_send_failed (env : Env) (st : DBState) (j : Job) (e : String)
    (h : st.applications.any (fun a => a.job_id == j.id) = false)
    (he : extract_email (j.description.getD "") = some e)
    (hf : env.emailSendOk j e = false) :
    apply_to_job env st j = (st, false) := by
  simp [apply_to_job, h, he, hf]

/-- Branch equation: no existing application, an extractable email, and a
successful transport take the auto-applied branch. -/
theorem apply_to_job_auto (env : Env) (st : DBState) (j : Job) (e : String)
    (h : st.applications.any (fun a => a.job_id == j.id) = false)
    (he : extract_email (j.description.getD "") = some e)
    (ht : env.emailSendOk j e = true) :
    apply_to_job env st j =
      ({ st with
          jobs := st.jobs.map (fun x => if x.id == j.id then
            { x with status := "Applied", applied_date := some env.now } else x),
          applications := st.applications ++
            [{ job_id := j.id,
               cover_letter := env.coverLetter j.title j.company (j.description.getD ""),
               email_sent := true, applied_date := env.now }],
          logs := st.logs ++ [autoAppliedLog j e],
          settings := { st.settings with
            total_auto_applied := st.settings.total_auto_applied + 1 } }, true) := by
  simp [apply_to_job, h, he, ht]

/-- A per-id update that does not change ids is invisible to the rows of any
other id. -/
theorem filter_map_update (l : List Job) (i jid : Nat) (hne : i ≠ jid)
    (upd : Job → Job) (hupd : ∀ x, (upd x).id = x.id) :
    (l.map (fun x => if x.id == jid then upd x else x)).filter (fun x => x.id == i)
      = l.filter (fun x => x.id == i) := by
  induction l with
  | nil => rfl
  | cons x l ih =>
    simp only [List.map_cons, List.filter_cons, ih]
    by_cases hx : x.id = jid
    · simp [hx, hupd, Ne.symm hne]
    · simp [hx]

/-- Processing one job adds no application row keyed to a different job. -/
theorem apply_to_job_apps_filter (env : Env) (st : DBState) (j : Job) (i : Nat)
    (hne : i ≠ j.id) :
    (apply_to_job env st j).1.applications.filter (fun a => a.job_id == i)
      = st.applications.filter (fun a => a.job_id == i) := by
  have hji : (j.id == i) = false := by simp [Ne.symm hne]
  cases hany : st.applications.any (fun a => a.job_id == j.id) with
  | true => rw [apply_to_job_skip env st j hany]
  | false =>
    cases hext : extract_email (j.description.getD "") with
    | none =>
      rw [apply_to_job_manual env st j hany hext]
      simp [List.filter_append, hji]
    | some e =>
      cases hsend : env.emailSendOk j e with
      | false => rw [apply_to_job_send_failed env st j e hany hext hsend]
      | true =>
        rw [apply_to_job_auto env st j e hany hext hsend]
        simp [List.filter_append, hji]

/-- Processing one job adds no "auto_applied" log row keyed to a different
job. -/
theorem apply_to_job_autolog_filter (env : Env) (st : DBState) (j : Job) (i : Nat)
    (hne : i ≠ j.id) :
    (apply_to_job env st j).1.logs.filter
        (fun l => l.job_id == i && l.action == "auto_applied")
      = st.logs.filter (fun l => l.job_id == i && l.action == "auto_applied") := by
  have hji : (j.id == i) = false := by simp [Ne.symm hne]
  cases hany : st.applications.any (fun a => a.job_id == j.id) with
  | true =>
    rw [apply_to_job_skip env st j hany]
    simp [List.filter_append, skipLog, hji]
  | false =>
    cases hext : extract_email (j.description.getD "") with
    | none =>
      rw [apply_to_job_manual env st j hany hext]
      simp [List.filter_append, manualLog, hji]
    | some e =>
      cases hsend : env.emailSendOk j e with
      | false => rw [apply_to_job_send_failed env st j e hany hext hsend]
      | true =>
        rw [apply_to_job_auto env st j e hany hext hsend]
        simp [List.filter_append, autoAppliedLog, hji]

/-- Processing one job does not touch the job rows of a different id. -/
theorem apply_to_job_jobs_filter (env : Env) (st : DBState) (j : Job) (i : Nat)
    (hne : i ≠ j.id) :
    (apply_to_job env st j).1.jobs.filter (fun x => x.id == i)
      = st.jobs.filter (fun x => x.id == i) := by
  cases hany : st.applications.any (fun a => a.job_id == j.id) with
  | true => rw [apply_to_job_skip env st j hany]
  | false =>
    cases hext : extract_email (j.description.getD "") with
    | none =>
      rw [apply_to_job_manual env st j hany hext]
      exact filter_map_update st.jobs i j.id hne _ (fun x => rfl)
    | some e =>
      cases hsend : env.emailSendOk j e with
      | false => rw [apply_to_job_send_failed env st j e hany hext hsend]
      | true =>
        rw [apply_to_job_auto env st j e hany hext hsend]
        exact filter_map_update st.jobs i j.id hne _ (fun x => rfl)

/-- Processing one job never removes application rows: the table only
grows at the end. -/
theorem apply_to_job_apps_grow (env : Env) (st : DBState) (j : Job) :
    ∃ tail, (apply_to_job env st j).1.applications = st.applications ++ tail := by
  cases hany : st.applications.any (fun a => a.job_id == j.id) with
  | true => exact ⟨[], by rw [apply_to_job_skip env st j hany]; simp⟩
  | false =>
    cases hext : extract_email (j.description.getD "") with
    | none => exact ⟨_, by rw [apply_to_job_manual env st j hany hext]⟩
    | some e =>
      cases hsend : env.emailSendOk j e with
      | false => exact ⟨[], by rw [apply_to_job_send_failed env st j e hany hext hsend]; simp⟩
      | true => exact ⟨_, by rw [apply_to_job_auto env st j e hany hext hsend]⟩

/-- Once a job id owns an application row, a whole processing pass changes
nothing keyed to that id: its application rows, its "auto_applied" log rows
and its job rows are untouched, and the application row persists. -/
theorem process_jobs_protected (env : Env) (j : Job) (batch : List Job) :
    ∀ st : DBState, (∃ a ∈ st.applications, a.job_id = j.id) →
      ((process_jobs env st batch).1.applications.filter (fun a => a.job_id == j.id)
          = st.applications.filter (fun a => a.job_id == j.id)) ∧
      ((process_jobs env st batch).1.logs.filter
            (fun l => l.job_id == j.id && l.action == "auto_applied")
          = st.logs.filter (fun l => l.job_id == j.id && l.action == "auto_applied")) ∧
      ((process_jobs env st batch).1.jobs.filter (fun x => x.id == j.id)
          = st.jobs.filter (fun x => x.id == j.id)) ∧
      (∃ a ∈ (process_jobs env st batch).1.applications, a.job_id = j.id) := by
  induction batch with
  | nil => exact fun st h => ⟨rfl, rfl, rfl, h⟩
  | cons j' rest ih =>
    intro st h
    have hunfold : (process_jobs env st (j' :: rest)).1
        = (process_jobs env (apply_to_job env st j').1 rest).1 := rfl
    by_cases hid : j'.id = j.id
    · have hany : st.applications.any (fun a => a.job_id == j'.id) = true := by
        rcases h with ⟨a, ha, hkey⟩
        exact List.any_eq_true.mpr ⟨a, ha, by simp [hkey, hid]⟩
      have hstep := apply_to_job_skip env st j' hany
      have hres := ih { st with logs := st.logs ++ [skipLog j'] } h
      rw [hunfold, hstep]
      refine ⟨hres.1, ?_, hres.2.2.1, hres.2.2.2⟩
      rw [hres.2.1]
      simp [List.filter_append, skipLog]
    · have hne : j.id ≠ j'.id := fun hh => hid hh.symm
      have hgrow := apply_to_job_apps_grow env st j'
      rcases hgrow with ⟨tail, htail⟩
      have h1 : ∃ a ∈ (apply_to_job env st j').1.applications, a.job_id = j.id := by
        rcases h with ⟨a, ha, hkey⟩
        exact ⟨a, by rw [htail]; exact List.mem_append_left _ ha, hkey⟩
      have hres := ih (apply_to_job env st j').1 h1
      rw [hunfold]
      refine ⟨?_, ?_, ?_, hres.2.2.2⟩
      · rw [hres.1, apply_to_job_apps_filter env st j' j.id hne]
      · rw [hres.2.1, apply_to_job_autolog_filter env st j' j.id hne]
      · rw [hres.2.2.1, apply_to_job_jobs_filter env st j' j.id hne]

/-- A processing pass over jobs of other ids changes nothing keyed to id
`i`: application rows, "auto_applied" log rows and job rows of `i` are all
untouched. -/
theorem process_jobs_other_ids (env : Env) (i : Nat) (batch : List Job) :
    ∀ st : DBState, (∀ j' ∈ batch, j'.id ≠ i) →
      ((process_jobs env st batch).1.applications.filter (fun a => a.job_id == i)
          = st.applications.filter (fun a => a.job_id == i)) ∧
      ((process_jobs env st batch).1.logs.filter
            (fun l => l.job_id == i && l.action == "auto_applied")
          = st.logs.filter (fun l => l.job_id == i && l.action == "auto_applied")) ∧
      ((process_jobs env st batch).1.jobs.filter (fun x => x.id == i)
          = st.jobs.filter (fun x => x.id == i)) := by
  induction batch with
  | nil => exact fun st _ => ⟨rfl, rfl, rfl⟩
  | cons j' rest ih =>
    intro st hids
    have hne : i ≠ j'.id := fun hh => hids j' (List.mem_cons_self j' rest) hh.symm
    have hunfold : (process_jobs env st (j' :: rest)).1
        = (process_jobs env (apply_to_job env st j').1 rest).1 := rfl
    have hres := ih (apply_to_job env st j').1
      (fun x hx => hids x (List.mem_cons_of_mem j' hx))
    rw [hunfold]
    refine ⟨?_, ?_, ?_⟩
    · rw [hres.1, apply_to_job_apps_filter env st j' i hne]
    · rw [hres.2.1, apply_to_job_autolog_filter env st j' i hne]
    · rw [hres.2.2, apply_to_job_jobs_filter env st j' i hne]

/-- Membership in the Matcher filter pool implies membership in the jobs
table with status "Found". -/
theorem mem_matching_pool {x : Job} (db : List Job) (s : AutoApplySettings)
    (hx : x ∈ matching_pool db s) : x ∈ db ∧ x.status = "Found" := by
  unfold matching_pool at hx
  simp only at hx
  have h1 : x ∈ List.filter (fun j => j.status == "Found") db := by
    split at hx
    · split at hx
      · split at hx
        · exact hx
        · exact List.mem_of_mem_filter hx
      · split at hx
        · exact List.mem_of_mem_filter hx
        · exact List.mem_of_mem_filter (List.mem_of_mem_filter hx)
    · split at hx
      · split at hx
        · exact List.mem_of_mem_filter hx
        · exact List.mem_of_mem_filter (List.mem_of_mem_filter hx)
      · split at hx
        · exact List.mem_of_mem_filter (List.mem_of_mem_filter hx)
        · exact List.mem_of_mem_filter
            (List.mem_of_mem_filter (List.mem_of_mem_filter hx))
  have h2 := List.mem_filter.mp h1
  exact ⟨h2.1, by simpa using h2.2⟩

/-- Membership in a Matcher result implies membership in the jobs table with
status "Found". -/
theorem mem_find_matching_jobs {x : Job} (db : List Job) (s : AutoApplySettings)
    (hx : x ∈ find_matching_jobs db s) : x ∈ db ∧ x.status = "Found" :=
  mem_matching_pool db s ((List.mem_insertionSort scoreGE).mp hx)

/-- Reassigning status "Found" to a job that already has it is the
identity. -/
theorem job_set_status_found (x : Job) (h : x.status = "Found") :
    ({ x with status := "Found" } : Job) = x := by
  cases x
  simp_all

/-- C3: an admitted job with no email-like substring in its description and
no existing application row takes the manual branch: an application row with
`email_sent = false` is created, the jobs table is unchanged (every row of
that id still has status "Found"), `total_auto_applied` is incremented, and
one "manual_apply_needed" log row is written. -/
theorem C3_manual_apply_needed (env : Env) (st : DBState) (j : Job)
    (hnoapp : st.applications.any (fun a => a.job_id == j.id) = false)
    (hnoemail : extract_email (j.description.getD "") = none)
    (hfound : ∀ x ∈ st.jobs, x.id = j.id → x.status = "Found") :
    (apply_to_job env st j).1.applications = st.applications ++
      [{ job_id := j.id,
         cover_letter := env.coverLetter j.title j.company (j.description.getD ""),
         email_sent := false, applied_date := env.now }] ∧
    (apply_to_job env st j).1.jobs = st.jobs ∧
    (∀ x ∈ (apply_to_job env st j).1.jobs, x.id = j.id → x.status = "Found") ∧
    (apply_to_job env st j).1.settings.total_auto_applied
      = st.settings.total_auto_applied + 1 ∧
    (apply_to_job env st j).1.logs = st.logs ++ [manualLog j] ∧
    (apply_to_job env st j).2 = true := by
  rw [apply_to_job_manual env st j hnoapp hnoemail]
  have hjobs : st.jobs.map (fun x => if x.id == j.id then
      { x with status := "Found" } else x) = st.jobs := by
    rw [List.map_congr_left (g := fun x => x) ?_]
    · simp
    · intro x hx
      by_cases hid : x.id = j.id
      · have hb : (x.id == j.id) = true := by simp [hid]
        simp only [hb, if_true]
        exact job_set_status_found x (hfound x hx hid)
      · simp [hid]
  exact ⟨rfl, hjobs, by rw [hjobs]; exact hfound, rfl, rfl, rfl⟩

/-- C3 witness: the theorem instantiated at the fixture store and the
email-less fixture job. -/
theorem C3_manual_apply_needed_witness :
    fixtureState.applications.any (fun a => a.job_id == jobMid.id) = false ∧
    extract_email (jobMid.description.getD "") = none ∧
    (∀ x ∈ fixtureState.jobs, x.id = jobMid.id → x.status = "Found") ∧
    ((apply_to_job envOk fixtureState jobMid).1.applications
        = fixtureState.applications ++
          [{ job_id := jobMid.id,
             cover_letter := envOk.coverLetter jobMid.title jobMid.company
               (jobMid.description.getD ""),
             email_sent := false, applied_date := envOk.now }] ∧
      (apply_to_job envOk fixtureState jobMid).1.jobs = fixtureState.jobs ∧
      (∀ x ∈ (apply_to_job envOk fixtureState jobMid).1.jobs,
        x.id = jobMid.id → x.status = "Found") ∧
      (apply_to_job envOk fixtureState jobMid).1.settings.total_auto_applied
        = fixtureState.settings.total_auto_applied + 1 ∧
      (apply_to_job envOk fixtureState jobMid).1.logs
        = fixtureState.logs ++ [manualLog jobMid] ∧
      (apply_to_job envOk fixtureState jobMid).2 = true) :=
  ⟨by decide, by decide, by decide,
    C3_manual_apply_needed envOk fixtureState jobMid (by decide) (by decide) (by decide)⟩


/-- C2 counterexample: a full run over an admitted job with an extractable
email whose transport fails persists NO AutoApplyLog row at all — in
particular no row with action "error" — because `_send_application_email`
catches the SMTP exception and returns False, and the `if success:` guard
has no else branch. -/
theorem C2_counterexample :
    extract_email (jobHi.description.getD "") = some "hr@acme.com" ∧
    envFail.emailSendOk jobHi "hr@acme.com" = false ∧
    jobHi ∈ admitted_jobs stOneJob.jobs stOneJob.settings ∧
    (run_daily_auto_apply envFail stOneJob).1.logs = [] ∧
    (run_daily_auto_apply envFail stOneJob).1.applications = [] ∧
    (run_daily_auto_apply envFail stOneJob).1.jobs = [jobHi] ∧
    (run_daily_auto_apply envFail stOneJob).2 = 0 := by
  decide

/-- C2 amended: for an admitted job with an extractable email address whose
transport fails, the run records nothing for that job — no AutoApplyLog row
of any kind (so none with action "error") and no ApplicationRecord — leaves
the whole store unchanged, and continues with the remaining jobs of the
batch exactly as if the failed job were absent, so the job (still in its
previous status) is retried on the next run. -/
theorem C2_transport_failure_amended (env : Env) (st : DBState) (j : Job)
    (rest : List Job) (e : String)
    (hnoapp : st.applications.any (fun a => a.job_id == j.id) = false)
    (hemail : extract_email (j.description.getD "") = some e)
    (hfail : env.emailSendOk j e = false) :
    apply_to_job env st j = (st, false) ∧
    process_jobs env st (j :: rest) = process_jobs env st rest := by
  have h := apply_to_job_send_failed env st j e hnoapp hemail hfail
  constructor
  · exact h
  · show (let r := apply_to_job env st j
          let rr := process_jobs env r.1 rest
          (rr.1, (if r.2 then 1 else 0) + rr.2)) = process_jobs env st rest
    rw [h]
    simp

/-- C2 amended witness: the theorem instantiated at the one-job fixture
store with the failing transport. -/
theorem C2_transport_failure_amended_witness :
    stOneJob.applications.any (fun a => a.job_id == jobHi.id) = false ∧
    extract_email (jobHi.description.getD "") = some "hr@acme.com" ∧
    envFail.emailSendOk jobHi "hr@acme.com" = false ∧
    (apply_to_job envFail stOneJob jobHi = (stOneJob, false) ∧
      process_jobs envFail stOneJob (jobHi :: [jobMid])
        = process_jobs envFail stOneJob [jobMid]) :=
  ⟨by decide, by decide, rfl,
    C2_transport_failure_amended envFail stOneJob jobHi [jobMid] "hr@acme.com"
      (by decide) (by decide) rfl⟩

/-- C8: a job whose status is already "Applied" is excluded by the Matcher
status filter, so re-running the whole scheduler adds no application row and
no "auto_applied" log row keyed to it. -/
theorem C8_applied_job_idempotent (env : Env) (st : DBState) (j : Job)
    (hnd : (st.jobs.map Job.id).Nodup) (hj : j ∈ st.jobs)
    (happ : j.status = "Applied") :
    j ∉ find_matching_jobs st.jobs st.settings ∧
    (run_daily_auto_apply env st).1.applications.filter (fun a => a.job_id == j.id)
      = st.applications.filter (fun a => a.job_id == j.id) ∧
    (run_daily_auto_apply env st).1.logs.filter
        (fun l => l.job_id == j.id && l.action == "auto_applied")
      = st.logs.filter (fun l => l.job_id == j.id && l.action == "auto_applied") := by
  have hnotmem : j ∉ find_matching_jobs st.jobs st.settings := by
    intro hmem
    have hst := (mem_find_matching_jobs st.jobs st.settings hmem).2
    rw [happ] at hst
    exact absurd hst (by decide)
  refine ⟨hnotmem, ?_⟩
  have hids : ∀ x ∈ admitted_jobs st.jobs st.settings, x.id ≠ j.id := by
    intro x hx hxid
    have hxm : x ∈ find_matching_jobs st.jobs st.settings :=
      List.mem_of_mem_take hx
    have hx2 := mem_find_matching_jobs st.jobs st.settings hxm
    have hxj : x = j := List.inj_on_of_nodup_map hnd hx2.1 hj hxid
    rw [hxj, happ] at hx2
    exact absurd hx2.2 (by decide)
  by_cases hen : st.settings.enabled = false
  · simp [run_daily_auto_apply, hen]
  · by_cases hempty : (find_matching_jobs st.jobs st.settings).isEmpty
    · simp [run_daily_auto_apply, hen, hempty]
    · have hp := process_jobs_other_ids env j.id
        (admitted_jobs st.jobs st.settings) st hids
      have hrun1 : (run_daily_auto_apply env st).1.applications
          = (process_jobs env st (admitted_jobs st.jobs st.settings)).1.applications := by
        simp [run_daily_auto_apply, hen, hempty]
      have hrun2 : (run_daily_auto_apply env st).1.logs
          = (process_jobs env st (admitted_jobs st.jobs st.settings)).1.logs := by
        simp [run_daily_auto_apply, hen, hempty]
      rw [hrun1, hrun2]
      exact ⟨hp.1, hp.2.1⟩

/-- C8 witness: the theorem instantiated at the fixture store, whose job
table contains the already-applied fixture job. -/
theorem C8_applied_job_idempotent_witness :
    (fixtureState.jobs.map Job.id).Nodup ∧
    jobDone ∈ fixtureState.jobs ∧
    jobDone.status = "Applied" ∧
    (jobDone ∉ find_matching_jobs fixtureState.jobs fixtureState.settings ∧
      (run_daily_auto_apply envOk fixtureState).1.applications.filter
          (fun a => a.job_id == jobDone.id)
        = fixtureState.applications.filter (fun a => a.job_id == jobDone.id) ∧
      (run_daily_auto_apply envOk fixtureState).1.logs.filter
          (fun l => l.job_id == jobDone.id && l.action == "auto_applied")
        = fixtureState.logs.filter
          (fun l => l.job_id == jobDone.id && l.action == "auto_applied")) :=
  ⟨by decide, by decide, rfl,
    C8_applied_job_idempotent envOk fixtureState jobDone (by decide) (by decide) rfl⟩


/-- C9: once a job owns an application row while its status stays "Found"
(the manual-apply-needed outcome), any pass that admits it classifies it
"skipped" and nothing else: no application row is ever added for it, no
"auto_applied" log row ever appears for it, its job row is never changed by
any batch, the application row persists, and it still occupies one of the
quota-admission slots of any run that admits it. -/
theorem C9_processed_job_skipped (env : Env) (st : DBState) (j : Job)
    (batch : List Job)
    (happ : ∃ a ∈ st.applications, a.job_id = j.id) :
    apply_to_job env st j = ({ st with logs := st.logs ++ [skipLog j] }, false) ∧
    (skipLog j).action = "skipped" ∧
    ((process_jobs env st batch).1.applications.filter (fun a => a.job_id == j.id)
        = st.applications.filter (fun a => a.job_id == j.id)) ∧
    ((process_jobs env st batch).1.logs.filter
          (fun l => l.job_id == j.id && l.action == "auto_applied")
        = st.logs.filter (fun l => l.job_id == j.id && l.action == "auto_applied")) ∧
    ((process_jobs env st batch).1.jobs.filter (fun x => x.id == j.id)
        = st.jobs.filter (fun x => x.id == j.id)) ∧
    (∃ a ∈ (process_jobs env st batch).1.applications, a.job_id = j.id) ∧
    (∀ db s, j ∈ admitted_jobs db s →
      ((admitted_jobs db s).filter (fun x => x.id != j.id)).length
        < s.max_applications_per_day) := by
  have hany : st.applications.any (fun a => a.job_id == j.id) = true := by
    rcases happ with ⟨a, ha, hkey⟩
    exact List.any_eq_true.mpr ⟨a, ha, by simp [hkey]⟩
  have hprot := process_jobs_protected env j batch st happ
  refine ⟨apply_to_job_skip env st j hany, rfl,
    hprot.1, hprot.2.1, hprot.2.2.1, hprot.2.2.2, ?_⟩
  intro db s hmem
  have hlt : ((admitted_jobs db s).filter (fun x => x.id != j.id)).length
      < (admitted_jobs db s).length :=
    List.length_filter_lt_length_iff_exists.mpr ⟨j, hmem, by simp⟩
  exact lt_of_lt_of_le hlt (List.length_take_le _ _)

/-- C9 witness: the theorem instantiated at the store in which `jobMid` was
already processed manually, with a batch that admits it again. -/
theorem C9_processed_job_skipped_witness :
    (∃ a ∈ stManualDone.applications, a.job_id = jobMid.id) ∧
    (apply_to_job envOk stManualDone jobMid
        = ({ stManualDone with
              logs := stManualDone.logs ++ [skipLog jobMid] }, false) ∧
      (skipLog jobMid).action = "skipped" ∧
      ((process_jobs envOk stManualDone [jobHi, jobMid]).1.applications.filter
          (fun a => a.job_id == jobMid.id)
        = stManualDone.applications.filter (fun a => a.job_id == jobMid.id)) ∧
      ((process_jobs envOk stManualDone [jobHi, jobMid]).1.logs.filter
            (fun l => l.job_id == jobMid.id && l.action == "auto_applied")
          = stManualDone.logs.filter
            (fun l => l.job_id == jobMid.id && l.action == "auto_applied")) ∧
      ((process_jobs envOk stManualDone [jobHi, jobMid]).1.jobs.filter
            (fun x => x.id == jobMid.id)
          = stManualDone.jobs.filter (fun x => x.id == jobMid.id)) ∧
      (∃ a ∈ (process_jobs envOk stManualDone [jobHi, jobMid]).1.applications,
        a.job_id = jobMid.id) ∧
      (∀ db s, jobMid ∈ admitted_jobs db s →
        ((admitted_jobs db s).filter (fun x => x.id != jobMid.id)).length
          < s.max_applications_per_day)) :=
  ⟨by decide, C9_processed_job_skipped envOk stManualDone jobMid [jobHi, jobMid]
    (by decide)⟩

/-- C5 (spec-modelled): the freshness filter parses "today", "N days ago"
and "N weeks ago"; absent or unparseable input is fresh; with the default
max age of 14 days, "3 days ago" is fresh and "20 days ago" is not; and week
counts are compared against the separate 2-week threshold, entirely
independently of the day-based `maxAgeDays` threshold. -/
theorem C5_freshness_filter :
    isFresh none 14 = true ∧
    (∀ m : Nat, isFresh (some "posted recently") m = true) ∧
    (∀ m : Nat, isFresh (some "today") m = true) ∧
    isFresh (some "3 days ago") 14 = true ∧
    isFresh (some "20 days ago") 14 = false ∧
    (∀ m : Nat, isFresh (some "2 weeks ago") m = true) ∧
    (∀ m : Nat, isFresh (some "3 weeks ago") m = false) :=
  ⟨rfl, fun _ => rfl, fun _ => rfl, by decide, by decide, fun _ => rfl, fun _ => rfl⟩

/-- An alphanumeric character is not whitespace. -/
theorem alnum_not_whitespace (c : Char) (h : c.isAlphanum = true) :
    c.isWhitespace = false := by
  cases hw : c.isWhitespace with
  | false => rfl
  | true =>
    have hcases := hw
    simp [Char.isWhitespace] at hcases
    rcases hcases with ((h1 | h1) | h1) | h1 <;>
      (subst h1; exact absurd h (by decide))

/-- Character lists equal after deleting whitespace stay equal after
deleting every non-alphanumeric character. -/
theorem filter_alnum_eq_of_filter_ws {l1 l2 : List Char}
    (h : l1.filter (fun ch => !ch.isWhitespace)
        = l2.filter (fun ch => !ch.isWhitespace)) :
    l1.filter Char.isAlphanum = l2.filter Char.isAlphanum := by
  have key : ∀ l : List Char, l.filter Char.isAlphanum
      = (l.filter (fun ch => !ch.isWhitespace)).filter Char.isAlphanum := by
    intro l
    rw [List.filter_filter]
    apply List.filter_congr
    intro c _
    cases ha : c.isAlphanum with
    | false => simp [ha]
    | true => simp [ha, alnum_not_whitespace c ha]
  rw [key l1, key l2, h]

/-- C7 counterexample: the fingerprint is NOT invariant under letter-case
changes (no field is lowercased before hashing), and the URL is hashed
verbatim, so even whitespace changes inside the URL change the fingerprint;
the `ScraperManager` variant is case-sensitive in every field. -/
theorem C7_counterexample :
    JobScraper.generate_job_id "Dev" "Acme" "u"
      ≠ JobScraper.generate_job_id "dev" "Acme" "u" ∧
    JobScraper.generate_job_id "A B" "C" "u v"
      ≠ JobScraper.generate_job_id "A B" "C" "uv" ∧
    ScraperManager.generate_job_id "T" "C" "u"
      ≠ ScraperManager.generate_job_id "t" "C" "u" := by
  decide

/-- C7 amended: the fingerprint computation is deterministic, and the
`JobScraper` variant is invariant under whitespace (indeed any
non-alphanumeric) formatting changes confined to the title and company
fields, the URL being held fixed; it is not case-normalized. -/
theorem C7_fingerprint_amended (t1 t2 c1 c2 u : String)
    (ht : t1.data.filter (fun ch => !ch.isWhitespace)
        = t2.data.filter (fun ch => !ch.isWhitespace))
    (hc : c1.data.filter (fun ch => !ch.isWhitespace)
        = c2.data.filter (fun ch => !ch.isWhitespace)) :
    JobScraper.generate_job_id t1 c1 u = JobScraper.generate_job_id t1 c1 u ∧
    JobScraper.generate_job_id t1 c1 u = JobScraper.generate_job_id t2 c2 u := by
  have hct : JobScraper.cleanAlnum t1 = JobScraper.cleanAlnum t2 := by
    unfold JobScraper.cleanAlnum
    rw [filter_alnum_eq_of_filter_ws ht]
  have hcc : JobScraper.cleanAlnum c1 = JobScraper.cleanAlnum c2 := by
    unfold JobScraper.cleanAlnum
    rw [filter_alnum_eq_of_filter_ws hc]
  exact ⟨rfl, by simp [JobScraper.generate_job_id, hct, hcc]⟩

/-- C7 amended witness: the theorem instantiated at concrete title and
company strings differing only in whitespace. -/
theorem C7_fingerprint_amended_witness :
    (" Dev ".data.filter (fun ch => !ch.isWhitespace)
        = "Dev".data.filter (fun ch => !ch.isWhitespace)) ∧
    ("Ac me".data.filter (fun ch => !ch.isWhitespace)
        = "Acme".data.filter (fun ch => !ch.isWhitespace)) ∧
    (JobScraper.generate_job_id " Dev " "Ac me" "u"
        = JobScraper.generate_job_id " Dev " "Ac me" "u" ∧
      JobScraper.generate_job_id " Dev " "Ac me" "u"
        = JobScraper.generate_job_id "Dev" "Acme" "u") :=
  ⟨by decide, by decide,
    C7_fingerprint_amended " Dev " "Dev" "Ac me" "Acme" "u" (by decide) (by decide)⟩
